import Mathlib

/-!
Shallow embedding of the ms-users session/auth core
(src/src/services/auth.service.ts, the UserService in src/unnamed/part_000,
and the auth middleware in src/src/controllers/auth.controller.ts).

Timestamps are `Nat` (UTC instants); `new Date()` call sites take an explicit
`now` parameter.  Database-generated ids (cuid) are explicit parameters.
Store tables are in-memory lists inside `DB`; every mutating operation returns
the outcome (`Except` with the source's thrown message strings) together with
the resulting `DB`.  The external Microsoft Graph call and the audit-log
write are the only store/network interactions whose failure a claim mentions;
their outcomes are explicit parameters (`graphResp`, `auditErr`).
-/

namespace MsUsers

/-- User row (prisma model `User`): internal identity record keyed by the
Azure AD subject id `azureAdId`. -/
structure User where
  id : String
  name : String
  email : String
  azureAdId : String
  azureAdTenantId : Option String
  isActive : Bool
  updatedAt : Nat
deriving DecidableEq

/-- Hospital row (tenant): code, optional subdomain and custom domain drive
the redirect URL computed by `selectHospital`. -/
structure Hospital where
  id : String
  code : String
  name : String
  subdomain : Option String
  customDomain : Option String
deriving DecidableEq

/-- Profile row (role): named bundle of allowed modules. -/
structure Profile where
  id : String
  code : String
  name : String
  allowedModules : List String
deriving DecidableEq

/-- UserHospitalProfile row (access grant): (user, hospital, profile) with the
active flag and granter/revoker bookkeeping. -/
structure UserHospitalProfile where
  id : String
  userId : String
  hospitalId : String
  profileId : String
  isActive : Bool
  grantedBy : String
  grantedAt : Nat
  revokedBy : Option String
  revokedAt : Option Nat
deriving DecidableEq

/-- AuditLog row as written by the services (metadata as a key/value list). -/
structure AuditLog where
  userId : String
  userName : String
  userEmail : String
  action : String
  description : String
  ipAddress : String
  userAgent : String
  metadata : List (String × String)
deriving DecidableEq

/-- Modelled from the spec: the `Session` table of the data model (a record of
an issued tenant-scoped token).  No code under src reads or writes this
table; it is carried in `DB` so that statements about session persistence can
be expressed. -/
structure Session where
  id : String
  userId : String
  hospitalId : String
  token : String
  expiresAt : Nat
  isActive : Bool
deriving DecidableEq

/-- The transactional store: one list per table. -/
structure DB where
  users : List User
  hospitals : List Hospital
  profiles : List Profile
  userHospitalProfiles : List UserHospitalProfile
  sessions : List Session
  auditLogs : List AuditLog
deriving DecidableEq

/-- Profile summary embedded in a context token
(`profiles.map` in `selectHospital`). -/
structure ProfileSummary where
  id : String
  code : String
  name : String
  allowedModules : List String
deriving DecidableEq

/-- The claims the services put into a JWT before signing: access/refresh
tokens carry `userId`, `email` and `type`; context tokens carry `userId`,
`hospitalId`, `hospitalCode`, `profiles` and `type`. -/
structure JwtClaims where
  userId : String
  email : Option String
  hospitalId : Option String
  hospitalCode : Option String
  profiles : Option (List ProfileSummary)
  type : String
deriving DecidableEq

/-- A signed payload: the claims plus the expiry added by `jwt.sign`. -/
structure JwtPayload extends JwtClaims where
  exp : Nat
deriving DecidableEq

/-- A signed token: payload plus signature.  The signature is modelled as the
signing secret (tamper evidence abstracted; no claim concerns forged
payloads). -/
structure Jwt where
  payload : JwtPayload
  sig : String
deriving DecidableEq

/-- Process-wide configuration: JWT secret and TTLs
(`config.jwtSecret`, `config.jwtExpiresIn`, `config.jwtRefreshExpiresIn`). -/
structure Config where
  jwtSecret : String
  jwtExpiresIn : Nat
  jwtRefreshExpiresIn : Nat
deriving DecidableEq

/-- `jwt.sign(claims, secret, { expiresIn: ttl })` at instant `now`. -/
def jwtSign (c : JwtClaims) (secret : String) (now ttl : Nat) : Jwt :=
  { payload := { toJwtClaims := c, exp := now + ttl }, sig := secret }

/-- `jwt.verify(token, secret)` at instant `now`: succeeds iff the signature
matches and the token is not expired (jsonwebtoken treats `now ≥ exp` as
expired); otherwise throws. -/
def jwtVerify (t : Jwt) (secret : String) (now : Nat) : Except String JwtPayload :=
  if t.sig = secret ∧ now < t.payload.exp then Except.ok t.payload
  else Except.error "jwt malformed or expired"

/-- `AuthService.generateTokens`: signs an access-kind and a refresh-kind
token for the user, with the configured TTLs. -/
def generateTokens (userId email : String) (cfg : Config) (now : Nat) : Jwt × Jwt :=
  ( jwtSign { userId := userId, email := some email, hospitalId := none,
              hospitalCode := none, profiles := none, type := "access" }
      cfg.jwtSecret now cfg.jwtExpiresIn,
    jwtSign { userId := userId, email := some email, hospitalId := none,
              hospitalCode := none, profiles := none, type := "refresh" }
      cfg.jwtSecret now cfg.jwtRefreshExpiresIn )

/-- `AuthService.verifyToken`: `jwt.verify` with any failure replaced by the
generic message.  Note: it returns the decoded payload without inspecting the
`type` discriminator. -/
def verifyToken (t : Jwt) (secret : String) (now : Nat) : Except String JwtPayload :=
  match jwtVerify t secret now with
  | Except.ok d => Except.ok d
  | Except.error _ => Except.error "Token inválido ou expirado"

/-- `authMiddleware` (src/src/controllers/auth.controller.ts): 401 when no
bearer token is presented or `verifyToken` throws; otherwise attaches the
decoded payload to the request.  The error side is the HTTP status code. -/
def authMiddleware (cfg : Config) (bearer : Option Jwt) (now : Nat) :
    Except Nat JwtPayload :=
  match bearer with
  | none => Except.error 401
  | some token =>
    match verifyToken token cfg.jwtSecret now with
    | Except.ok d => Except.ok d
    | Except.error _ => Except.error 401

/-- The account descriptor returned by the Microsoft Graph `/me` endpoint
(`mail` may be absent; `userPrincipalName` is the fallback). -/
structure AzureUser where
  id : String
  displayName : Option String
  mail : Option String
  userPrincipalName : String
deriving DecidableEq

/-- A grant row joined with its hospital and profile
(prisma `include: { hospital: true, profile: true }`). -/
structure UhpWithJoins where
  uhp : UserHospitalProfile
  hospital : Hospital
  profile : Profile
deriving DecidableEq

/-- Perform the `include` join for one grant row: `none` only if a foreign
key dangles, which the store's constraints rule out. -/
def enrichRow (db : DB) (g : UserHospitalProfile) : Option UhpWithJoins :=
  match db.hospitals.find? (fun x => x.id == g.hospitalId),
        db.profiles.find? (fun x => x.id == g.profileId) with
  | some hosp, some prof => some { uhp := g, hospital := hosp, profile := prof }
  | _, _ => none

/-- Result shape of the login flow. -/
structure LoginResult where
  accessToken : Jwt
  refreshToken : Jwt
  user : User
  hospitals : List UhpWithJoins
deriving DecidableEq

/-- The LOGIN audit entry written by `authenticateWithAzureToken`. -/
def loginAudit (user : User) : AuditLog :=
  { userId := user.id, userName := user.name, userEmail := user.email,
    action := "LOGIN", description := "Login via Azure AD SSO",
    ipAddress := "unknown", userAgent := "unknown",
    metadata := [("azureAdId", user.azureAdId)] }

/-- Tail of `authenticateWithAzureToken` after find-or-create: load the
user's active grants (joined), generate tokens, then write the audit entry.
If the audit write fails, the surrounding catch turns the whole login into
`Falha na autenticação: …` (the user row created or touched above stays
persisted — there is no enclosing transaction). -/
def finishLogin (db : DB) (cfg : Config) (user : User) (now : Nat)
    (auditErr : Option String) : Except String LoginResult × DB :=
  let hospitals := (db.userHospitalProfiles.filter
      (fun g => g.userId == user.id && g.isActive)).filterMap (enrichRow db)
  let tokens := generateTokens user.id user.email cfg now
  match auditErr with
  | some m => (Except.error ("Falha na autenticação: " ++ m), db)
  | none =>
    (Except.ok { accessToken := tokens.1, refreshToken := tokens.2,
                 user := user, hospitals := hospitals },
     { db with auditLogs := db.auditLogs ++ [loginAudit user] })

/-- The User row created on first sight of an external identity: name from
`displayName` falling back to `mail` then `userPrincipalName`, email from
`mail` falling back to `userPrincipalName`, active. -/
def newUserFromAzure (azureUser : AzureUser) (newUserId : String) (now : Nat) :
    User :=
  { id := newUserId,
    name := azureUser.displayName.getD
      (azureUser.mail.getD azureUser.userPrincipalName),
    email := azureUser.mail.getD azureUser.userPrincipalName,
    azureAdId := azureUser.id, azureAdTenantId := none,
    isActive := true, updatedAt := now }

/-- The `updatedAt` touch applied to an already-known user on login. -/
def touchUser (u : User) (now : Nat) : User := { u with updatedAt := now }

/-- prisma `update` keyed on the user table's unique `id`. -/
def updateUserById (l : List User) (i : String) (u1 : User) : List User :=
  l.map (fun v => if v.id = i then u1 else v)

/-- `AuthService.authenticateWithAzureToken`: validate the provider token via
Graph (`graphResp` is that call's outcome), find-or-create the internal user
by `azureAdId` (create on first sight with `isActive := true`; touch
`updatedAt` otherwise), then `finishLogin`.  `newUserId` is the id the store
would generate for a created row. -/
def authenticateWithAzureToken (db : DB) (cfg : Config)
    (graphResp : Except String AzureUser) (newUserId : String) (now : Nat)
    (auditErr : Option String) : Except String LoginResult × DB :=
  match graphResp with
  | Except.error m => (Except.error ("Falha na autenticação: " ++ m), db)
  | Except.ok azureUser =>
    match db.users.find? (fun u => u.azureAdId == azureUser.id) with
    | none =>
      let user := newUserFromAzure azureUser newUserId now
      finishLogin { db with users := db.users ++ [user] } cfg user now auditErr
    | some u =>
      let user := touchUser u now
      finishLogin { db with users := updateUserById db.users u.id user }
        cfg user now auditErr

/-- Body of `AuthService.refreshAccessToken` before its catch-all: verify the
token, check the `type` discriminator, re-resolve the user against the store
and reject missing or inactive users, then issue a fresh pair. -/
def refreshInner (db : DB) (cfg : Config) (tok : Jwt) (now : Nat) :
    Except String (Jwt × Jwt) :=
  match jwtVerify tok cfg.jwtSecret now with
  | Except.error m => Except.error m
  | Except.ok decoded =>
    if decoded.type ≠ "refresh" then Except.error "Token inválido"
    else
      match db.users.find? (fun u => u.id == decoded.userId) with
      | none => Except.error "Usuário não encontrado ou inativo"
      | some user =>
        if ¬ user.isActive then Except.error "Usuário não encontrado ou inativo"
        else Except.ok (generateTokens user.id user.email cfg now)

/-- `AuthService.refreshAccessToken`: the catch-all replaces every failure of
the body — including the user-inactive one — with the generic message. -/
def refreshAccessToken (db : DB) (cfg : Config) (tok : Jwt) (now : Nat) :
    Except String (Jwt × Jwt) :=
  match refreshInner db cfg tok now with
  | Except.ok r => Except.ok r
  | Except.error _ => Except.error "Token inválido ou expirado"

/-- The LOGOUT audit entry. -/
def logoutAudit (user : User) : AuditLog :=
  { userId := user.id, userName := user.name, userEmail := user.email,
    action := "LOGOUT", description := "Logout do sistema",
    ipAddress := "unknown", userAgent := "unknown", metadata := [] }

/-- `AuthService.logout`: look the user up; when present write a LOGOUT audit
entry (an audit failure is rethrown unchanged by the catch); when absent do
nothing and succeed.  The bearer token is not used and no session row is
touched. -/
def logout (db : DB) (userId : String) (token : Jwt) (auditErr : Option String) :
    Except String Unit × DB :=
  match db.users.find? (fun u => u.id == userId) with
  | none => (Except.ok (), db)
  | some user =>
    match auditErr with
    | some m => (Except.error m, db)
    | none => (Except.ok (), { db with auditLogs := db.auditLogs ++ [logoutAudit user] })

/-- Result shape of `selectHospital`. -/
structure SelectHospitalResult where
  redirectUrl : String
  hospital : Hospital
  profiles : List Profile
  contextToken : Jwt
deriving DecidableEq

/-- The SELECT_HOSPITAL audit entry. -/
def selectHospitalAudit (userId hospitalId : String) (hosp : Hospital) : AuditLog :=
  { userId := userId, userName := "", userEmail := "",
    action := "SELECT_HOSPITAL",
    description := "Selecionou hospital: " ++ hosp.name,
    ipAddress := "unknown", userAgent := "unknown",
    metadata := [("hospitalId", hospitalId), ("hospitalCode", hosp.code)] }

/-- Profile summary embedded into a context token. -/
def mkSummary (p : Profile) : ProfileSummary :=
  { id := p.id, code := p.code, name := p.name, allowedModules := p.allowedModules }

/-- `AuthService.selectHospital`: require an active grant for
(user, hospital) — otherwise throw `Usuário não tem acesso a este hospital` —
then sign a context token embedding hospital id, hospital code and the
summarized profile list, compute the redirect URL from the hospital's custom
domain or subdomain, and write a SELECT_HOSPITAL audit entry (an audit
failure is rethrown unchanged).  No Session row is written.  The second
`match` arm is unreachable when foreign keys resolve. -/
def selectHospital (db : DB) (cfg : Config) (userId hospitalId : String)
    (now : Nat) (auditErr : Option String) :
    Except String SelectHospitalResult × DB :=
  match db.userHospitalProfiles.find?
      (fun g => g.userId == userId && g.hospitalId == hospitalId && g.isActive) with
  | none => (Except.error "Usuário não tem acesso a este hospital", db)
  | some g =>
    match db.hospitals.find? (fun x => x.id == g.hospitalId) with
    | none => (Except.error "estado inconsistente", db)
    | some hospital =>
      let profiles := (db.userHospitalProfiles.filter
          (fun r => r.userId == userId && r.hospitalId == hospitalId && r.isActive)).filterMap
          (fun r => db.profiles.find? (fun x => x.id == r.profileId))
      let contextToken := jwtSign
        { userId := userId, email := none, hospitalId := some hospitalId,
          hospitalCode := some hospital.code,
          profiles := some (profiles.map mkSummary), type := "context" }
        cfg.jwtSecret now cfg.jwtExpiresIn
      let subdomain := hospital.subdomain.getD (hospital.code ++ "-lazarus")
      let redirectUrl :=
        match hospital.customDomain with
        | some d => "https://" ++ d ++ "/modules"
        | none => "https://" ++ subdomain ++ ".healthchainsolutions.com.br/modules"
      match auditErr with
      | some m => (Except.error m, db)
      | none =>
        (Except.ok { redirectUrl := redirectUrl, hospital := hospital,
                     profiles := profiles, contextToken := contextToken },
         { db with auditLogs := db.auditLogs ++ [selectHospitalAudit userId hospitalId hospital] })

/-- An entry of `getUserHospitals`' result: the hospital's fields spread
together with the accumulated `profiles` array. -/
structure HospitalWithProfiles where
  hospital : Hospital
  profiles : List Profile
deriving DecidableEq

/-- One step of the `forEach` over a JS `Map` in `UserService.getUserHospitals`:
push the row's profile onto the existing entry for its hospital id, or append
a fresh entry (insertion order preserved, as for a JS `Map`). -/
def groupStep (acc : List HospitalWithProfiles) (row : UhpWithJoins) :
    List HospitalWithProfiles :=
  if acc.any (fun e => e.hospital.id == row.hospital.id) then
    acc.map (fun e =>
      if e.hospital.id == row.hospital.id then
        { e with profiles := e.profiles ++ [row.profile] }
      else e)
  else
    acc ++ [{ hospital := row.hospital, profiles := [row.profile] }]

/-- The user's active grant rows with their joins, as loaded by
`getUserHospitals`' `findMany`. -/
def activeRows (db : DB) (userId : String) : List UhpWithJoins :=
  (db.userHospitalProfiles.filter
    (fun g => g.userId == userId && g.isActive)).filterMap (enrichRow db)

/-- `UserService.getUserHospitals`: load the user's active grants (joined)
and group them by hospital id. -/
def getUserHospitals (db : DB) (userId : String) : List HospitalWithProfiles :=
  (activeRows db userId).foldl groupStep []

/-- The `findFirst` predicate of `grantHospitalAccess` (note: no `isActive`
filter — revoked rows are found too). -/
def tripleMatch (userId hospitalId profileId : String) (g : UserHospitalProfile) :
    Bool :=
  g.userId == userId && g.hospitalId == hospitalId && g.profileId == profileId

/-- prisma `update` keyed on the grant table's unique `id`: replace the row
carrying that id. -/
def updateById (l : List UserHospitalProfile) (i : String)
    (g1 : UserHospitalProfile) : List UserHospitalProfile :=
  l.map (fun r => if r.id = i then g1 else r)

/-- The row data written by `revokeHospitalAccess`'s update. -/
def revokedRow (g : UserHospitalProfile) (rb : String) (t1 : Nat) :
    UserHospitalProfile :=
  { g with isActive := false, revokedBy := some rb, revokedAt := some t1 }

/-- The row data written by `grantHospitalAccess`'s reactivation update. -/
def reactivatedRow (g : UserHospitalProfile) (gb : String) (t2 : Nat) :
    UserHospitalProfile :=
  { g with
      isActive := true, grantedBy := gb, grantedAt := t2,
      revokedBy := none, revokedAt := none }

/-- `UserService.grantHospitalAccess`: if a row for the triple exists, return
it unchanged when active, reactivate it (new granter/timestamp, revoker
fields cleared) when inactive; otherwise insert a new active row — the store
rejects the insert if a row for the unique triple already exists (duplicate
key), which cannot happen here since `find?` returned `none`. -/
def grantHospitalAccess (db : DB) (userId hospitalId profileId grantedBy : String)
    (now : Nat) (newId : String) : Except String UserHospitalProfile × DB :=
  match db.userHospitalProfiles.find? (tripleMatch userId hospitalId profileId) with
  | some existing =>
    if existing.isActive then (Except.ok existing, db)
    else
      let updated := reactivatedRow existing grantedBy now
      let rows := updateById db.userHospitalProfiles existing.id updated
      (Except.ok updated, { db with userHospitalProfiles := rows })
  | none =>
    if db.userHospitalProfiles.any (tripleMatch userId hospitalId profileId) then
      (Except.error "Erro ao conceder acesso: unique constraint violation", db)
    else
      let access : UserHospitalProfile :=
        { id := newId, userId := userId, hospitalId := hospitalId,
          profileId := profileId, isActive := true, grantedBy := grantedBy,
          grantedAt := now, revokedBy := none, revokedAt := none }
      (Except.ok access,
       { db with userHospitalProfiles := db.userHospitalProfiles ++ [access] })

/-- `UserService.revokeHospitalAccess`: require an active row for the triple
— otherwise throw (wrapped by the catch into `Erro ao revogar acesso: …`) —
and deactivate it, recording the revoker and timestamp. -/
def revokeHospitalAccess (db : DB) (userId hospitalId profileId revokedBy : String)
    (now : Nat) : Except String Unit × DB :=
  match db.userHospitalProfiles.find?
      (fun g => tripleMatch userId hospitalId profileId g && g.isActive) with
  | none => (Except.error "Erro ao revogar acesso: Acesso não encontrado", db)
  | some access =>
    let updated := revokedRow access revokedBy now
    let rows := updateById db.userHospitalProfiles access.id updated
    (Except.ok (), { db with userHospitalProfiles := rows })

/-- Boolean success test for `Except`, used to state witnesses compactly. -/
def exceptOk {ε α : Type} : Except ε α → Bool
  | Except.ok _ => true
  | Except.error _ => false

/-- Decidable equality on `Except`, so witnesses can be evaluated. -/
instance {ε α : Type} [DecidableEq ε] [DecidableEq α] :
    DecidableEq (Except ε α) := fun x y =>
  match x, y with
  | Except.ok a, Except.ok b =>
    decidable_of_iff (a = b) ⟨fun h => congrArg Except.ok h, fun h => by injection h⟩
  | Except.error e, Except.error f =>
    decidable_of_iff (e = f) ⟨fun h => congrArg Except.error h, fun h => by injection h⟩
  | Except.ok _, Except.error _ => isFalse (fun h => by injection h)
  | Except.error _, Except.ok _ => isFalse (fun h => by injection h)

/-! Concrete sample data, used by witnesses and counterexamples. -/

/-- Sample tenant (mirrors the demo hospital of the seed data). -/
def hospW : Hospital :=
  { id := "tenant-demo", code := "demo", name := "Hospital Demo",
    subdomain := some "demo-lazarus", customDomain := none }

/-- A second sample tenant. -/
def hospB : Hospital :=
  { id := "tenant-b", code := "hb", name := "Hospital B",
    subdomain := none, customDomain := none }

/-- Sample role. -/
def profW : Profile :=
  { id := "role-auditor", code := "AUDITOR", name := "Auditor Médico",
    allowedModules := ["auditor"] }

/-- Sample active user. -/
def userW : User :=
  { id := "user-1", name := "Ana", email := "a@x.com", azureAdId := "ext-1",
    azureAdTenantId := none, isActive := true, updatedAt := 0 }

/-- Sample active grant: (user-1, tenant-demo, role-auditor). -/
def grantW : UserHospitalProfile :=
  { id := "uhp-1", userId := "user-1", hospitalId := "tenant-demo",
    profileId := "role-auditor", isActive := true, grantedBy := "admin-1",
    grantedAt := 0, revokedBy := none, revokedAt := none }

/-- Sample active grant at the second tenant. -/
def grantB : UserHospitalProfile :=
  { grantW with id := "uhp-2", hospitalId := "tenant-b" }

/-- Sample configuration. -/
def cfg0 : Config :=
  { jwtSecret := "s3cr3t", jwtExpiresIn := 100, jwtRefreshExpiresIn := 1000 }

/-- The empty store. -/
def dbEmpty : DB :=
  { users := [], hospitals := [], profiles := [], userHospitalProfiles := [],
    sessions := [], auditLogs := [] }

/-- Store where user-1 holds one active grant at tenant-demo. -/
def dbW : DB :=
  { dbEmpty with
      users := [userW], hospitals := [hospW, hospB], profiles := [profW],
      userHospitalProfiles := [grantW] }

/-- Store where user-1's only active grant is at tenant-b. -/
def dbB : DB :=
  { dbEmpty with
      users := [userW], hospitals := [hospW, hospB], profiles := [profW],
      userHospitalProfiles := [grantB] }

/-- Sample access-kind claims. -/
def accessClaimsW : JwtClaims :=
  { userId := "user-1", email := some "a@x.com", hospitalId := none,
    hospitalCode := none, profiles := none, type := "access" }

/-- Sample refresh-kind claims. -/
def refreshClaimsW : JwtClaims :=
  { accessClaimsW with type := "refresh" }

/-- Sample Graph account descriptor. -/
def azW : AzureUser :=
  { id := "ext-1", displayName := some "Ana", mail := some "a@x.com",
    userPrincipalName := "ana@corp" }

/-- user-1, deactivated. -/
def userInactiveW : User := { userW with isActive := false }

/-- Store holding only the deactivated user-1. -/
def dbInactive : DB := { dbEmpty with users := [userInactiveW] }

/-- The (user-1, tenant-demo, role-auditor) grant after a revocation. -/
def grantRevoked : UserHospitalProfile :=
  { grantW with
      isActive := false, revokedBy := some "admin-2", revokedAt := some 5 }

/-- Store where the sample triple's grant row is revoked. -/
def dbRevoked : DB := { dbW with userHospitalProfiles := [grantRevoked] }

/-! General list lemmas used by the proofs. -/

/-- `find?` is the head of `filter`. -/
theorem find_eq_head_filter {α : Type} (p : α → Bool) (l : List α) :
    l.find? p = (l.filter p).head? := by
  induction l with
  | nil => rfl
  | cons a t ih =>
    by_cases h : p a = true
    · rw [List.find?_cons_of_pos _ h, List.filter_cons_of_pos h]
      rfl
    · rw [List.find?_cons_of_neg _ h, List.filter_cons_of_neg h, ih]

/-- Replacing, by its unique key, the sole `p`-satisfying element of a list
with a `p`-satisfying element of the same key leaves that replacement as the
sole `p`-satisfying element. -/
theorem filter_update_unique {α : Type} (key : α → String) (p : α → Bool)
    (g g1 : α) (hkey : key g1 = key g) (hp1 : p g1 = true) :
    ∀ l : List α, (l.map key).Nodup → l.filter p = [g] →
      (l.map (fun r => if key r = key g then g1 else r)).filter p = [g1] := by
  intro l
  induction l with
  | nil => intro _ h; simp at h
  | cons a t ih =>
    intro hnd hfl
    rw [List.map_cons, List.nodup_cons] at hnd
    obtain ⟨hna, hndt⟩ := hnd
    by_cases hpa : p a = true
    · rw [List.filter_cons_of_pos hpa] at hfl
      injection hfl with h1 h2
      subst h1
      have htmap : t.map (fun r => if key r = key a then g1 else r) = t := by
        refine (List.map_congr_left ?_).trans (List.map_id t)
        intro x hx
        have hne : key x ≠ key a := by
          intro he
          exact hna (he ▸ List.mem_map_of_mem key hx)
        simp [hne]
      rw [List.map_cons, htmap, if_pos rfl, List.filter_cons_of_pos hp1, h2]
    · rw [List.filter_cons_of_neg hpa] at hfl
      have hg_mem : g ∈ t := by
        refine List.mem_of_mem_filter (p := p) ?_
        rw [hfl]
        exact List.mem_singleton_self g
      have hne : key a ≠ key g := by
        intro he
        exact hna (he ▸ List.mem_map_of_mem key hg_mem)
      rw [List.map_cons, if_neg hne, List.filter_cons_of_neg hpa]
      exact ih hndt hfl

/-- Replacing an element by key with one of equal key preserves the key list. -/
theorem map_key_update {α : Type} (key : α → String) (g g1 : α)
    (hkey : key g1 = key g) (l : List α) :
    (l.map (fun r => if key r = key g then g1 else r)).map key = l.map key := by
  rw [List.map_map]
  refine List.map_congr_left ?_
  intro a _
  by_cases h : key a = key g
  · simp [Function.comp, h, hkey]
  · simp [Function.comp, h]

/-! Claim theorems. -/

/-- C8: token round-trip.  For every claims payload, secret and ttl,
verifying `jwtSign claims secret now ttl` through the service's
`verifyToken` before the expiry instant succeeds and returns exactly the
input claims extended with the expiry `now + ttl`; at or after the expiry
instant it fails with the generic invalid-token error. -/
theorem token_roundtrip (c : JwtClaims) (secret : String) (now ttl t : Nat) :
    (t < now + ttl →
      verifyToken (jwtSign c secret now ttl) secret t =
        Except.ok { toJwtClaims := c, exp := now + ttl }) ∧
    (now + ttl ≤ t →
      verifyToken (jwtSign c secret now ttl) secret t =
        Except.error "Token inválido ou expirado") := by
  constructor
  · intro h
    simp [verifyToken, jwtVerify, jwtSign, h]
  · intro h
    simp [verifyToken, jwtVerify, jwtSign, Nat.not_lt.mpr h]

/-- Witness for C8 at concrete inputs (before and after expiry). -/
theorem token_roundtrip_witness :
    verifyToken (jwtSign accessClaimsW "s3cr3t" 0 5) "s3cr3t" 3 =
      Except.ok { toJwtClaims := accessClaimsW, exp := 5 } ∧
    verifyToken (jwtSign accessClaimsW "s3cr3t" 0 5) "s3cr3t" 7 =
      Except.error "Token inválido ou expirado" :=
  ⟨(token_roundtrip accessClaimsW "s3cr3t" 0 5 3).1 (by norm_num),
   (token_roundtrip accessClaimsW "s3cr3t" 0 5 7).2 (by norm_num)⟩

/-- C1 counterexample: a valid refresh-kind token presented to the
authentication middleware (whose verification path is `verifyToken`) is
accepted with its decoded claims — it does not fail with the invalid-token
error, contrary to the claim. -/
theorem refresh_accepted_by_middleware :
    authMiddleware cfg0 (some (jwtSign refreshClaimsW cfg0.jwtSecret 0 100)) 1 =
      Except.ok { toJwtClaims := refreshClaimsW, exp := 100 } := by decide

/-- C1 (amended): `verifyToken` checks only the signature and the expiry,
never the kind discriminator, so the middleware accepts a refresh-kind token
where an access-kind token is required; the kind is checked only inside
`refreshAccessToken`, which rejects non-refresh tokens with the generic
invalid-token error. -/
theorem kind_checked_only_at_refresh (cfg : Config) (db : DB)
    (c c2 : JwtClaims) (now ttl t : Nat)
    (hkind : c.type = "refresh") (hk2 : c2.type ≠ "refresh")
    (ht : t < now + ttl) :
    authMiddleware cfg (some (jwtSign c cfg.jwtSecret now ttl)) t =
      Except.ok { toJwtClaims := c, exp := now + ttl } ∧
    refreshAccessToken db cfg (jwtSign c2 cfg.jwtSecret now ttl) t =
      Except.error "Token inválido ou expirado" := by
  constructor
  · simp [authMiddleware, verifyToken, jwtVerify, jwtSign, ht]
  · simp [refreshAccessToken, refreshInner, jwtVerify, jwtSign, ht, hk2]

/-- Witness for the amended C1 at concrete inputs. -/
theorem kind_checked_only_at_refresh_witness :
    authMiddleware cfg0 (some (jwtSign refreshClaimsW cfg0.jwtSecret 0 1000)) 3 =
      Except.ok { toJwtClaims := refreshClaimsW, exp := 1000 } ∧
    refreshAccessToken dbEmpty cfg0 (jwtSign accessClaimsW cfg0.jwtSecret 0 1000) 3 =
      Except.error "Token inválido ou expirado" :=
  kind_checked_only_at_refresh cfg0 dbEmpty refreshClaimsW accessClaimsW 0 1000 3
    rfl (by decide) (by norm_num)

/-- C6 counterexample: a valid refresh-kind token whose user does not exist
in the store makes `refreshAccessToken` fail with the generic invalid-token
message, not with the distinct user-inactive-or-missing message the claim
requires. -/
theorem refresh_missing_user_generic_error :
    refreshAccessToken dbEmpty cfg0 (jwtSign refreshClaimsW cfg0.jwtSecret 0 100) 1 =
      Except.error "Token inválido ou expirado" ∧
    refreshAccessToken dbEmpty cfg0 (jwtSign refreshClaimsW cfg0.jwtSecret 0 100) 1 ≠
      Except.error "Usuário não encontrado ou inativo" := by
  constructor
  · decide
  · decide

/-- C6 (amended): for a valid refresh-kind token, if the referenced user is
missing or deactivated the body of refresh raises the distinct
user-inactive-or-missing error, but the catch-all surfaces the generic
invalid-token message instead; otherwise refresh returns a freshly generated
access+refresh pair (`generateTokens` at the refresh instant), not the old
tokens. -/
theorem refresh_revalidates_user (db : DB) (cfg : Config) (c : JwtClaims)
    (now ttl t : Nat) (ht : t < now + ttl) (hkind : c.type = "refresh") :
    ((∀ u, db.users.find? (fun v => v.id == c.userId) = some u →
        u.isActive = false) →
      refreshInner db cfg (jwtSign c cfg.jwtSecret now ttl) t =
        Except.error "Usuário não encontrado ou inativo" ∧
      refreshAccessToken db cfg (jwtSign c cfg.jwtSecret now ttl) t =
        Except.error "Token inválido ou expirado") ∧
    (∀ u, db.users.find? (fun v => v.id == c.userId) = some u →
      u.isActive = true →
      refreshAccessToken db cfg (jwtSign c cfg.jwtSecret now ttl) t =
        Except.ok (generateTokens u.id u.email cfg t)) := by
  constructor
  · intro hmiss
    cases hf : db.users.find? (fun v => v.id == c.userId) with
    | none =>
      constructor
      · simp [refreshInner, jwtVerify, jwtSign, ht, hkind, hf]
      · simp [refreshAccessToken, refreshInner, jwtVerify, jwtSign, ht, hkind, hf]
    | some u =>
      have hu := hmiss u hf
      constructor
      · simp [refreshInner, jwtVerify, jwtSign, ht, hkind, hf, hu]
      · simp [refreshAccessToken, refreshInner, jwtVerify, jwtSign, ht, hkind, hf, hu]
  · intro u hf hu
    simp [refreshAccessToken, refreshInner, jwtVerify, jwtSign, ht, hkind, hf, hu]

/-- Witness for the amended C6: deactivated user at a concrete input. -/
theorem refresh_revalidates_user_witness :
    refreshInner dbInactive cfg0 (jwtSign refreshClaimsW cfg0.jwtSecret 0 1000) 2 =
      Except.error "Usuário não encontrado ou inativo" ∧
    refreshAccessToken dbInactive cfg0 (jwtSign refreshClaimsW cfg0.jwtSecret 0 1000) 2 =
      Except.error "Token inválido ou expirado" :=
  (refresh_revalidates_user dbInactive cfg0 refreshClaimsW 0 1000 2
    (by norm_num) rfl).1 (by decide)

/-- C7: tenant isolation.  When the store holds no active grant for
(user, tenant), `selectHospital` fails with the no-access error and leaves
the store untouched (in particular it issues no context token and writes no
session or audit row). -/
theorem selectHospital_no_grant_fails (db : DB) (cfg : Config) (u h : String)
    (now : Nat) (auditErr : Option String)
    (hnone : db.userHospitalProfiles.filter
      (fun g => g.userId == u && g.hospitalId == h && g.isActive) = []) :
    selectHospital db cfg u h now auditErr =
      (Except.error "Usuário não tem acesso a este hospital", db) := by
  have hf : db.userHospitalProfiles.find?
      (fun g => g.userId == u && g.hospitalId == h && g.isActive) = none := by
    rw [find_eq_head_filter, hnone]
    rfl
  simp [selectHospital, hf]

/-- Witness for C7: user-1's only active grant is at tenant-b, so selecting
tenant-demo fails. -/
theorem selectHospital_no_grant_witness :
    selectHospital dbB cfg0 "user-1" "tenant-demo" 0 none =
      (Except.error "Usuário não tem acesso a este hospital", dbB) :=
  selectHospital_no_grant_fails dbB cfg0 "user-1" "tenant-demo" 0 none (by decide)

/-- C2 counterexample: user-1 holds an active grant at tenant-demo, so
`selectHospital` succeeds — yet the sessions table stays empty: no Session
row with the issued token and `isActive = true` is persisted. -/
theorem selectHospital_no_session_row :
    exceptOk (selectHospital dbW cfg0 "user-1" "tenant-demo" 0 none).1 = true ∧
    (selectHospital dbW cfg0 "user-1" "tenant-demo" 0 none).2.sessions = [] := by
  constructor
  · decide
  · decide

/-- C2 (amended): for every user and tenant with an active grant,
`selectHospital` returns the context token, redirect URL, tenant and role
list and appends a SELECT_HOSPITAL audit entry, but persists no Session
record — the sessions table (and every other table) is left unchanged. -/
theorem selectHospital_returns_context_no_session (db : DB) (cfg : Config)
    (u h : String) (now : Nat) (g : UserHospitalProfile) (hosp : Hospital)
    (hg : db.userHospitalProfiles.find?
      (fun r => r.userId == u && r.hospitalId == h && r.isActive) = some g)
    (hh : db.hospitals.find? (fun x => x.id == g.hospitalId) = some hosp) :
    ∃ res : SelectHospitalResult, ∃ db2 : DB,
      selectHospital db cfg u h now none = (Except.ok res, db2) ∧
      db2.sessions = db.sessions ∧
      db2.users = db.users ∧
      db2.userHospitalProfiles = db.userHospitalProfiles ∧
      db2.auditLogs = db.auditLogs ++ [selectHospitalAudit u h hosp] ∧
      res.hospital = hosp ∧
      res.profiles = (db.userHospitalProfiles.filter
        (fun r => r.userId == u && r.hospitalId == h && r.isActive)).filterMap
        (fun r => db.profiles.find? (fun x => x.id == r.profileId)) ∧
      res.contextToken = jwtSign
        { userId := u, email := none, hospitalId := some h,
          hospitalCode := some hosp.code,
          profiles := some (res.profiles.map mkSummary), type := "context" }
        cfg.jwtSecret now cfg.jwtExpiresIn := by
  simp only [selectHospital, hg, hh]
  exact ⟨_, _, rfl, rfl, rfl, rfl, rfl, rfl, rfl, rfl⟩

/-- Witness for the amended C2 at the concrete sample store. -/
theorem selectHospital_returns_context_no_session_witness :
    ∃ res : SelectHospitalResult, ∃ db2 : DB,
      selectHospital dbW cfg0 "user-1" "tenant-demo" 0 none = (Except.ok res, db2) ∧
      db2.sessions = dbW.sessions ∧
      db2.users = dbW.users ∧
      db2.userHospitalProfiles = dbW.userHospitalProfiles ∧
      db2.auditLogs = dbW.auditLogs ++
        [selectHospitalAudit "user-1" "tenant-demo" hospW] ∧
      res.hospital = hospW ∧
      res.profiles = (dbW.userHospitalProfiles.filter
        (fun r => r.userId == "user-1" && r.hospitalId == "tenant-demo" && r.isActive)).filterMap
        (fun r => dbW.profiles.find? (fun x => x.id == r.profileId)) ∧
      res.contextToken = jwtSign
        { userId := "user-1", email := none, hospitalId := some "tenant-demo",
          hospitalCode := some hospW.code,
          profiles := some (res.profiles.map mkSummary), type := "context" }
        cfg0.jwtSecret 0 cfg0.jwtExpiresIn :=
  selectHospital_returns_context_no_session dbW cfg0 "user-1" "tenant-demo" 0
    grantW hospW (by decide) (by decide)

/-- C9 counterexample: when the audit-log write fails during logout, the
logout operation itself fails — the audit failure is surfaced to the caller,
contrary to the best-effort claim. -/
theorem logout_fails_on_audit_failure :
    (logout dbW "user-1" (jwtSign accessClaimsW cfg0.jwtSecret 0 100)
        (some "audit store down")).1 = Except.error "audit store down" ∧
    exceptOk (logout dbW "user-1" (jwtSign accessClaimsW cfg0.jwtSecret 0 100)
        (some "audit store down")).1 = false := by
  constructor
  · decide
  · decide

/-- C9 (amended): audit writes sit on the primary path.  A failing audit
write makes login fail with the wrapped generic authentication error and
makes logout fail with the audit error itself; grant and revoke write no
audit entries at all (their audit trail is untouched in every branch), so
they cannot be affected. -/
theorem audit_failure_propagates (db : DB) (cfg : Config) (az : AzureUser)
    (newUserId m uid : String) (now : Nat) (tok : Jwt) (user : User)
    (u2 h2 p2 gb rb newId : String) (n2 : Nat)
    (hu : db.users.find? (fun v => v.id == uid) = some user) :
    (authenticateWithAzureToken db cfg (Except.ok az) newUserId now (some m)).1 =
      Except.error ("Falha na autenticação: " ++ m) ∧
    (logout db uid tok (some m)).1 = Except.error m ∧
    (grantHospitalAccess db u2 h2 p2 gb n2 newId).2.auditLogs = db.auditLogs ∧
    (revokeHospitalAccess db u2 h2 p2 rb n2).2.auditLogs = db.auditLogs := by
  refine ⟨?_, ?_, ?_, ?_⟩
  · cases hf : db.users.find? (fun v => v.azureAdId == az.id) with
    | none => simp [authenticateWithAzureToken, hf, finishLogin]
    | some u => simp [authenticateWithAzureToken, hf, finishLogin]
  · simp [logout, hu]
  · cases hf : db.userHospitalProfiles.find? (tripleMatch u2 h2 p2) with
    | none =>
      by_cases ha : db.userHospitalProfiles.any (tripleMatch u2 h2 p2) = true
      · simp [grantHospitalAccess, hf, ha]
      · simp [grantHospitalAccess, hf, ha]
    | some ex =>
      by_cases hact : ex.isActive = true
      · simp [grantHospitalAccess, hf, hact]
      · simp [grantHospitalAccess, hf, hact]
  · cases hf : db.userHospitalProfiles.find?
        (fun g => tripleMatch u2 h2 p2 g && g.isActive) with
    | none => simp [revokeHospitalAccess, hf]
    | some a => simp [revokeHospitalAccess, hf]

/-- Witness for the amended C9 at concrete inputs. -/
theorem audit_failure_propagates_witness :
    (authenticateWithAzureToken dbW cfg0 (Except.ok azW) "user-9" 3
        (some "disk full")).1 =
      Except.error ("Falha na autenticação: " ++ "disk full") ∧
    (logout dbW "user-1" (jwtSign accessClaimsW cfg0.jwtSecret 0 100)
        (some "disk full")).1 = Except.error "disk full" ∧
    (grantHospitalAccess dbW "user-1" "tenant-b" "role-auditor" "admin-1" 3
        "uhp-9").2.auditLogs = dbW.auditLogs ∧
    (revokeHospitalAccess dbW "user-1" "tenant-b" "role-auditor" "admin-1"
        3).2.auditLogs = dbW.auditLogs :=
  audit_failure_propagates dbW cfg0 azW "user-9" "disk full" "user-1" 3
    (jwtSign accessClaimsW cfg0.jwtSecret 0 100) userW
    "user-1" "tenant-b" "role-auditor" "admin-1" "admin-1" "uhp-9" 3 (by decide)

/-- C4: grant is idempotent on an active triple: when the store's sole row
for (user, hospital, profile) is active, `grantHospitalAccess` returns that
row unchanged (same id), changes nothing in the store, raises no error, and
exactly one active row for the triple remains. -/
theorem grant_idempotent_on_active (db : DB) (u h p gb newId : String)
    (now : Nat) (g : UserHospitalProfile)
    (hone : db.userHospitalProfiles.filter (tripleMatch u h p) = [g])
    (hact : g.isActive = true) :
    grantHospitalAccess db u h p gb now newId = (Except.ok g, db) ∧
    db.userHospitalProfiles.filter
      (fun r => tripleMatch u h p r && r.isActive) = [g] := by
  have hf : db.userHospitalProfiles.find? (tripleMatch u h p) = some g := by
    rw [find_eq_head_filter, hone]
    rfl
  constructor
  · simp [grantHospitalAccess, hf, hact]
  · rw [← List.filter_filter, List.filter_comm, hone]
    simp [hact]

/-- Witness for C4 at the concrete sample store. -/
theorem grant_idempotent_on_active_witness :
    grantHospitalAccess dbW "user-1" "tenant-demo" "role-auditor" "admin-3" 9
      "uhp-new" = (Except.ok grantW, dbW) ∧
    dbW.userHospitalProfiles.filter
      (fun r => tripleMatch "user-1" "tenant-demo" "role-auditor" r &&
        r.isActive) = [grantW] :=
  grant_idempotent_on_active dbW "user-1" "tenant-demo" "role-auditor"
    "admin-3" "uhp-new" 9 grantW (by decide) (by decide)

/-- `filter_update_unique` specialized to grant rows and `updateById`. -/
theorem uhp_filter_update (p : UserHospitalProfile → Bool)
    (g g1 : UserHospitalProfile) (hkey : g1.id = g.id) (hp1 : p g1 = true)
    (l : List UserHospitalProfile) (hn : (l.map (fun r => r.id)).Nodup)
    (hf : l.filter p = [g]) : (updateById l g.id g1).filter p = [g1] := by
  have h := filter_update_unique (fun r => r.id) p g g1 hkey hp1 l hn hf
  simpa [updateById] using h

/-- `map_key_update` specialized to grant rows and `updateById`. -/
theorem uhp_map_id_update (g g1 : UserHospitalProfile) (hkey : g1.id = g.id)
    (l : List UserHospitalProfile) :
    (updateById l g.id g1).map (fun r => r.id) = l.map (fun r => r.id) := by
  have h := map_key_update (fun r => r.id) g g1 hkey l
  simpa [updateById] using h

/-- When an active row for the triple exists, `revokeHospitalAccess`
deactivates exactly that row, recording revoker and timestamp. -/
theorem revoke_eq (db : DB) (u h p rb : String) (t1 : Nat)
    (g : UserHospitalProfile)
    (hfind : db.userHospitalProfiles.find?
      (fun r => tripleMatch u h p r && r.isActive) = some g) :
    revokeHospitalAccess db u h p rb t1 =
      (Except.ok (),
       { db with userHospitalProfiles :=
           updateById db.userHospitalProfiles g.id (revokedRow g rb t1) }) := by
  simp [revokeHospitalAccess, hfind]

/-- When the row found for the triple is inactive, `grantHospitalAccess`
reactivates it in place: new granter and timestamp, revoker fields cleared. -/
theorem grant_reactivate_eq (db : DB) (u h p gb newId : String) (t2 : Nat)
    (g : UserHospitalProfile)
    (hfind : db.userHospitalProfiles.find? (tripleMatch u h p) = some g)
    (hinact : g.isActive = false) :
    grantHospitalAccess db u h p gb t2 newId =
      (Except.ok (reactivatedRow g gb t2),
       { db with userHospitalProfiles :=
           updateById db.userHospitalProfiles g.id (reactivatedRow g gb t2) }) := by
  simp [grantHospitalAccess, hfind, hinact]

/-- C5: revoke followed by grant on the same active triple reactivates the
original row: the regranted row keeps the original id, is active, has its
revoker fields cleared to none and its granter/timestamp set to the new
values, and remains the store's sole row for the triple. -/
theorem revoke_then_grant_reactivates (db : DB) (u h p rb gb2 newId : String)
    (t1 t2 : Nat) (g : UserHospitalProfile)
    (hone : db.userHospitalProfiles.filter (tripleMatch u h p) = [g])
    (hact : g.isActive = true)
    (hids : (db.userHospitalProfiles.map (fun r => r.id)).Nodup) :
    ∃ db1 : DB, revokeHospitalAccess db u h p rb t1 = (Except.ok (), db1) ∧
    ∃ g2 : UserHospitalProfile, ∃ db2 : DB,
      grantHospitalAccess db1 u h p gb2 t2 newId = (Except.ok g2, db2) ∧
      g2.id = g.id ∧ g2.isActive = true ∧
      g2.revokedBy = none ∧ g2.revokedAt = none ∧
      g2.grantedBy = gb2 ∧ g2.grantedAt = t2 ∧
      db2.userHospitalProfiles.filter (tripleMatch u h p) = [g2] := by
  have hgmem : g ∈ db.userHospitalProfiles.filter (tripleMatch u h p) := by
    rw [hone]
    exact List.mem_singleton_self g
  have htbg : tripleMatch u h p g = true := (List.mem_filter.mp hgmem).2
  have hfact : db.userHospitalProfiles.filter
      (fun r => tripleMatch u h p r && r.isActive) = [g] := by
    rw [← List.filter_filter, List.filter_comm, hone]
    simp [hact]
  have hfind1 : db.userHospitalProfiles.find?
      (fun r => tripleMatch u h p r && r.isActive) = some g := by
    rw [find_eq_head_filter, hfact]
    rfl
  refine ⟨_, revoke_eq db u h p rb t1 g hfind1, ?_⟩
  have htb1 : tripleMatch u h p (revokedRow g rb t1) = true := htbg
  have h1 : (updateById db.userHospitalProfiles g.id
      (revokedRow g rb t1)).filter (tripleMatch u h p) = [revokedRow g rb t1] :=
    uhp_filter_update (tripleMatch u h p) g (revokedRow g rb t1) rfl htb1
      db.userHospitalProfiles hids hone
  have hids1 : ((updateById db.userHospitalProfiles g.id
      (revokedRow g rb t1)).map (fun r => r.id)).Nodup := by
    rw [uhp_map_id_update g (revokedRow g rb t1) rfl]
    exact hids
  have hfind2 : (updateById db.userHospitalProfiles g.id
      (revokedRow g rb t1)).find? (tripleMatch u h p) =
      some (revokedRow g rb t1) := by
    rw [find_eq_head_filter, h1]
    rfl
  refine ⟨_, _,
    grant_reactivate_eq _ u h p gb2 newId t2 (revokedRow g rb t1) hfind2 rfl,
    rfl, rfl, rfl, rfl, rfl, rfl, ?_⟩
  have htb2 : tripleMatch u h p (reactivatedRow (revokedRow g rb t1) gb2 t2) =
      true := htbg
  exact uhp_filter_update (tripleMatch u h p) (revokedRow g rb t1)
    (reactivatedRow (revokedRow g rb t1) gb2 t2) rfl htb2 _ hids1 h1

/-- `filter_update_unique` specialized to user rows and `updateUserById`. -/
theorem user_filter_update (p : User → Bool) (g g1 : User)
    (hkey : g1.id = g.id) (hp1 : p g1 = true) (l : List User)
    (hn : (l.map (fun v => v.id)).Nodup) (hf : l.filter p = [g]) :
    (updateUserById l g.id g1).filter p = [g1] := by
  have h := filter_update_unique (fun v => v.id) p g g1 hkey hp1 l hn hf
  simpa [updateUserById] using h

/-- `map_key_update` specialized to user rows and `updateUserById`. -/
theorem user_map_id_update (g g1 : User) (hkey : g1.id = g.id) (l : List User) :
    (updateUserById l g.id g1).map (fun v => v.id) = l.map (fun v => v.id) := by
  have h := map_key_update (fun v => v.id) g g1 hkey l
  simpa [updateUserById] using h

/-- C3: Account Resolver find-or-create is idempotent per external id modulo
the timestamp touch: two consecutive logins for the same external subject id
both succeed, return the same internal user id, and leave exactly one User
row for that external id (the second resolution never creates a second
record). -/
theorem account_resolver_idempotent (db : DB) (cfg : Config) (az : AzureUser)
    (id1 id2 : String) (n1 n2 : Nat)
    (hUids : (db.users.map (fun v => v.id)).Nodup)
    (hAz : (db.users.filter (fun v => v.azureAdId == az.id)).length ≤ 1)
    (hFresh : id1 ∉ db.users.map (fun v => v.id)) :
    ∃ r1 : LoginResult, ∃ db1 : DB,
      authenticateWithAzureToken db cfg (Except.ok az) id1 n1 none =
        (Except.ok r1, db1) ∧
    ∃ r2 : LoginResult, ∃ db2 : DB,
      authenticateWithAzureToken db1 cfg (Except.ok az) id2 n2 none =
        (Except.ok r2, db2) ∧
      r2.user.id = r1.user.id ∧
      (db2.users.filter (fun v => v.azureAdId == az.id)).length = 1 := by
  cases hfl : db.users.filter (fun v => v.azureAdId == az.id) with
  | nil =>
    have hfind : db.users.find? (fun v => v.azureAdId == az.id) = none := by
      rw [find_eq_head_filter, hfl]
      rfl
    simp only [authenticateWithAzureToken, hfind, finishLogin]
    refine ⟨_, _, rfl, ?_⟩
    have hfl2 : (db.users ++ [newUserFromAzure az id1 n1]).filter
        (fun v => v.azureAdId == az.id) = [newUserFromAzure az id1 n1] := by
      rw [List.filter_append, hfl]
      simp [newUserFromAzure]
    have hfind2 : (db.users ++ [newUserFromAzure az id1 n1]).find?
        (fun v => v.azureAdId == az.id) = some (newUserFromAzure az id1 n1) := by
      rw [find_eq_head_filter, hfl2]
      rfl
    have hnodup2 : ((db.users ++ [newUserFromAzure az id1 n1]).map
        (fun v => v.id)).Nodup := by
      rw [List.map_append]
      refine List.nodup_append.mpr ⟨hUids, List.nodup_singleton _, ?_⟩
      intro a ha hb
      simp [newUserFromAzure] at hb
      subst hb
      exact hFresh ha
    simp only [authenticateWithAzureToken, hfind2, finishLogin]
    refine ⟨_, _, rfl, rfl, ?_⟩
    have h2 : (updateUserById (db.users ++ [newUserFromAzure az id1 n1])
        (newUserFromAzure az id1 n1).id
        (touchUser (newUserFromAzure az id1 n1) n2)).filter
        (fun v => v.azureAdId == az.id) =
        [touchUser (newUserFromAzure az id1 n1) n2] :=
      user_filter_update (fun v => v.azureAdId == az.id)
        (newUserFromAzure az id1 n1) (touchUser (newUserFromAzure az id1 n1) n2)
        rfl (by simp [newUserFromAzure, touchUser]) _ hnodup2 hfl2
    rw [h2]
    rfl
  | cons u0 t =>
    cases t with
    | cons b tb =>
      exfalso
      rw [hfl] at hAz
      simp at hAz
    | nil =>
      have hfind : db.users.find? (fun v => v.azureAdId == az.id) = some u0 := by
        rw [find_eq_head_filter, hfl]
        rfl
      have hazp0 : (u0.azureAdId == az.id) = true := by
        have : u0 ∈ db.users.filter (fun v => v.azureAdId == az.id) := by
          rw [hfl]
          exact List.mem_singleton_self u0
        exact (List.mem_filter.mp this).2
      simp only [authenticateWithAzureToken, hfind, finishLogin]
      refine ⟨_, _, rfl, ?_⟩
      have hfl1 : (updateUserById db.users u0.id (touchUser u0 n1)).filter
          (fun v => v.azureAdId == az.id) = [touchUser u0 n1] :=
        user_filter_update (fun v => v.azureAdId == az.id) u0 (touchUser u0 n1)
          rfl (by simpa [touchUser] using hazp0) db.users hUids hfl
      have hnodup1 : ((updateUserById db.users u0.id (touchUser u0 n1)).map
          (fun v => v.id)).Nodup := by
        rw [user_map_id_update u0 (touchUser u0 n1) rfl]
        exact hUids
      have hfind1 : (updateUserById db.users u0.id (touchUser u0 n1)).find?
          (fun v => v.azureAdId == az.id) = some (touchUser u0 n1) := by
        rw [find_eq_head_filter, hfl1]
        rfl
      simp only [authenticateWithAzureToken, hfind1, finishLogin]
      refine ⟨_, _, rfl, rfl, ?_⟩
      have h2 : (updateUserById (updateUserById db.users u0.id (touchUser u0 n1))
          (touchUser u0 n1).id (touchUser (touchUser u0 n1) n2)).filter
          (fun v => v.azureAdId == az.id) = [touchUser (touchUser u0 n1) n2] :=
        user_filter_update (fun v => v.azureAdId == az.id) (touchUser u0 n1)
          (touchUser (touchUser u0 n1) n2) rfl
          (by simpa [touchUser] using hazp0) _ hnodup1 hfl1
      rw [h2]
      rfl

/-- Witness for C3: two logins for external id ext-9 against the sample
store. -/
theorem account_resolver_idempotent_witness :
    ∃ r1 : LoginResult, ∃ db1 : DB,
      authenticateWithAzureToken dbW cfg0
        (Except.ok { azW with id := "ext-9" }) "user-9" 4 none =
        (Except.ok r1, db1) ∧
    ∃ r2 : LoginResult, ∃ db2 : DB,
      authenticateWithAzureToken db1 cfg0
        (Except.ok { azW with id := "ext-9" }) "user-10" 6 none =
        (Except.ok r2, db2) ∧
      r2.user.id = r1.user.id ∧
      (db2.users.filter (fun v => v.azureAdId == "ext-9")).length = 1 :=
  account_resolver_idempotent dbW cfg0 { azW with id := "ext-9" }
    "user-9" "user-10" 4 6 (by decide) (by decide) (by decide)

/-- Witness for C5: revoke then regrant of the sample triple. -/
theorem revoke_then_grant_reactivates_witness :
    ∃ db1 : DB, revokeHospitalAccess dbW "user-1" "tenant-demo" "role-auditor"
      "admin-2" 5 = (Except.ok (), db1) ∧
    ∃ g2 : UserHospitalProfile, ∃ db2 : DB,
      grantHospitalAccess db1 "user-1" "tenant-demo" "role-auditor" "admin-3" 9
        "uhp-new" = (Except.ok g2, db2) ∧
      g2.id = grantW.id ∧ g2.isActive = true ∧
      g2.revokedBy = none ∧ g2.revokedAt = none ∧
      g2.grantedBy = "admin-3" ∧ g2.grantedAt = 9 ∧
      db2.userHospitalProfiles.filter
        (tripleMatch "user-1" "tenant-demo" "role-auditor") = [g2] :=
  revoke_then_grant_reactivates dbW "user-1" "tenant-demo" "role-auditor"
    "admin-2" "admin-3" "uhp-new" 5 9 grantW (by decide) (by decide) (by decide)

/-- The found entry satisfies the hospital-id predicate. -/
theorem hwp_find_pred {l : List HospitalWithProfiles} {h : String}
    {e : HospitalWithProfiles}
    (hf : l.find? (fun x => x.hospital.id == h) = some e) :
    e.hospital.id = h := by
  have hp := List.find?_some hf
  simpa using hp

/-- `find?` by hospital id commutes with a map that preserves hospital ids. -/
theorem find_map_keypres (l : List HospitalWithProfiles) (h : String)
    (upd : HospitalWithProfiles → HospitalWithProfiles)
    (hk : ∀ e, (upd e).hospital.id = e.hospital.id) :
    (l.map upd).find? (fun e => e.hospital.id == h) =
      (l.find? (fun e => e.hospital.id == h)).map upd := by
  induction l with
  | nil => rfl
  | cons a t ih =>
    cases ha : (a.hospital.id == h) with
    | true =>
      have hua : ((upd a).hospital.id == h) = true := by rw [hk a]; exact ha
      rw [List.map_cons]
      simp only [List.find?_cons, hua, ha]
      rfl
    | false =>
      have hua : ((upd a).hospital.id == h) = false := by rw [hk a]; exact ha
      rw [List.map_cons]
      simp only [List.find?_cons, hua, ha]
      exact ih

/-- `groupStep` preserves the no-duplicate-hospital-ids invariant of the
accumulator. -/
theorem groupStep_nodup (acc : List HospitalWithProfiles) (r : UhpWithJoins)
    (hnd : (acc.map (fun e => e.hospital.id)).Nodup) :
    ((groupStep acc r).map (fun e => e.hospital.id)).Nodup := by
  unfold groupStep
  by_cases hany : acc.any (fun e => e.hospital.id == r.hospital.id) = true
  · rw [if_pos hany]
    have hmm : ((acc.map (fun e =>
        if e.hospital.id == r.hospital.id then
          { e with profiles := e.profiles ++ [r.profile] }
        else e)).map (fun e => e.hospital.id)) =
        acc.map (fun e => e.hospital.id) := by
      rw [List.map_map]
      refine List.map_congr_left ?_
      intro e _
      by_cases he : (e.hospital.id == r.hospital.id) = true
      · simp [Function.comp, he]
      · simp [Function.comp, he]
    rw [hmm]
    exact hnd
  · rw [if_neg hany, List.map_append]
    refine List.nodup_append.mpr ⟨hnd, List.nodup_singleton _, ?_⟩
    intro a ha hb
    simp only [List.map_cons, List.map_nil, List.mem_singleton] at hb
    subst hb
    rcases List.mem_map.mp ha with ⟨e, he, hke⟩
    exact hany (List.any_eq_true.mpr ⟨e, he, by simp [hke]⟩)

/-- How one `groupStep` changes the entry found for a hospital id. -/
theorem groupStep_find (acc : List HospitalWithProfiles) (r : UhpWithJoins)
    (h : String) :
    (groupStep acc r).find? (fun e => e.hospital.id == h) =
      if r.hospital.id = h then
        match acc.find? (fun e => e.hospital.id == h) with
        | some e => some { e with profiles := e.profiles ++ [r.profile] }
        | none => some { hospital := r.hospital, profiles := [r.profile] }
      else acc.find? (fun e => e.hospital.id == h) := by
  unfold groupStep
  have hk : ∀ e : HospitalWithProfiles,
      ((if e.hospital.id == r.hospital.id then
          { e with profiles := e.profiles ++ [r.profile] }
        else e) : HospitalWithProfiles).hospital.id = e.hospital.id := by
    intro e
    by_cases he : (e.hospital.id == r.hospital.id) = true
    · simp [he]
    · simp [he]
  by_cases hany : acc.any (fun e => e.hospital.id == r.hospital.id) = true
  · rw [if_pos hany, find_map_keypres acc h _ hk]
    by_cases hrh : r.hospital.id = h
    · subst hrh
      rw [if_pos rfl]
      cases hfe : acc.find? (fun e => e.hospital.id == r.hospital.id) with
      | none =>
        exfalso
        rcases List.any_eq_true.mp hany with ⟨e, he, hpe⟩
        have : (acc.find? (fun e => e.hospital.id == r.hospital.id)).isSome :=
          List.find?_isSome.mpr ⟨e, he, hpe⟩
        rw [hfe] at this
        exact Bool.noConfusion this
      | some e =>
        have hpe : e.hospital.id = r.hospital.id := hwp_find_pred hfe
        simp [hpe]
    · rw [if_neg hrh]
      cases hfe : acc.find? (fun e => e.hospital.id == h) with
      | none => rfl
      | some e =>
        have hpe : e.hospital.id = h := hwp_find_pred hfe
        have hne : (e.hospital.id == r.hospital.id) = false := by
          refine beq_eq_false_iff_ne.mpr ?_
          intro hc
          exact hrh (hc ▸ hpe)
        simp [Option.map, hne]
  · rw [if_neg hany, List.find?_append]
    by_cases hrh : r.hospital.id = h
    · subst hrh
      have hfe : acc.find? (fun e => e.hospital.id == r.hospital.id) = none := by
        cases hfe : acc.find? (fun e => e.hospital.id == r.hospital.id) with
        | none => rfl
        | some e =>
          exfalso
          refine hany (List.any_eq_true.mpr
            ⟨e, List.mem_of_find?_eq_some hfe, ?_⟩)
          simp [hwp_find_pred hfe]
      rw [if_pos rfl, hfe]
      simp [List.find?]
    · rw [if_neg hrh]
      have hnew : (r.hospital.id == h) = false := beq_eq_false_iff_ne.mpr hrh
      simp only [List.find?_cons, hnew]
      simp

/-- Folding `groupStep` over joined grant rows: hospital ids stay duplicate
free, and the entry found for a hospital id accumulates exactly the profiles
of the rows carrying that id, in order. -/
theorem foldl_group (rs : List UhpWithJoins) :
    ∀ acc : List HospitalWithProfiles,
      (acc.map (fun e => e.hospital.id)).Nodup →
      ((rs.foldl groupStep acc).map (fun e => e.hospital.id)).Nodup ∧
      ∀ h : String,
        (rs.foldl groupStep acc).find? (fun e => e.hospital.id == h) =
          match acc.find? (fun e => e.hospital.id == h) with
          | some e => some { e with profiles :=
              e.profiles ++ (rs.filter
                (fun r => r.hospital.id == h)).map (fun r => r.profile) }
          | none =>
            match rs.find? (fun r => r.hospital.id == h) with
            | some r0 => some { hospital := r0.hospital, profiles :=
                (rs.filter (fun r => r.hospital.id == h)).map (fun r => r.profile) }
            | none => none := by
  induction rs with
  | nil =>
    intro acc hnd
    refine ⟨hnd, ?_⟩
    intro h
    cases hfe : acc.find? (fun e => e.hospital.id == h) with
    | none =>
      rw [List.foldl_nil, hfe]
      rfl
    | some e =>
      rw [List.foldl_nil, hfe]
      simp
  | cons r rs ih =>
    intro acc hnd
    have hnd1 := groupStep_nodup acc r hnd
    obtain ⟨ihn, ihf⟩ := ih (groupStep acc r) hnd1
    rw [List.foldl_cons]
    refine ⟨ihn, ?_⟩
    intro h
    rw [ihf h, groupStep_find acc r h]
    by_cases hrh : r.hospital.id = h
    · rw [if_pos hrh]
      have hbr : (r.hospital.id == h) = true := beq_iff_eq.mpr hrh
      cases hfe : acc.find? (fun e => e.hospital.id == h) with
      | some e =>
        simp only [List.filter_cons, hbr, List.map_cons]
        simp
      | none =>
        have hfr : (r :: rs).find? (fun x => x.hospital.id == h) = some r := by
          simp only [List.find?_cons, hbr]
        rw [hfr]
        simp only [List.filter_cons, hbr, List.map_cons]
        simp
    · rw [if_neg hrh]
      have hbr : (r.hospital.id == h) = false := beq_eq_false_iff_ne.mpr hrh
      have hfl : (r :: rs).filter (fun x => x.hospital.id == h) =
          rs.filter (fun x => x.hospital.id == h) := by
        simp [List.filter_cons, hbr]
      have hfr : (r :: rs).find? (fun x => x.hospital.id == h) =
          rs.find? (fun x => x.hospital.id == h) := by
        simp [List.find?_cons, hbr]
      rw [hfl, hfr]

/-- The found joined row satisfies the hospital-id predicate. -/
theorem row_find_pred {l : List UhpWithJoins} {h : String} {r : UhpWithJoins}
    (hf : l.find? (fun x => x.hospital.id == h) = some r) :
    r.hospital.id = h := by
  have hp := List.find?_some hf
  simpa using hp

/-- With duplicate-free hospital ids, searching a list for a member's own
hospital id finds exactly that member. -/
theorem hwp_find_self (l : List HospitalWithProfiles)
    (hnd : (l.map (fun e => e.hospital.id)).Nodup)
    (e : HospitalWithProfiles) (he : e ∈ l) :
    l.find? (fun x => x.hospital.id == e.hospital.id) = some e := by
  induction l with
  | nil => cases he
  | cons a t ih =>
    rw [List.map_cons, List.nodup_cons] at hnd
    obtain ⟨hna, hndt⟩ := hnd
    rcases List.mem_cons.mp he with rfl | het
    · simp [List.find?_cons]
    · have hne : (a.hospital.id == e.hospital.id) = false := by
        refine beq_eq_false_iff_ne.mpr ?_
        intro hc
        refine hna ?_
        rw [hc]
        exact List.mem_map_of_mem (fun x => x.hospital.id) het
      simp only [List.find?_cons, hne]
      exact ih hndt het

/-- What a successful `enrichRow` join implies: the row wraps the grant and
its hospital and profile really are the store rows the foreign keys name. -/
theorem enrich_some {db : DB} {g : UserHospitalProfile} {row : UhpWithJoins}
    (he : enrichRow db g = some row) :
    row.uhp = g ∧ row.hospital.id = g.hospitalId ∧
    db.hospitals.find? (fun x => x.id == g.hospitalId) = some row.hospital ∧
    db.profiles.find? (fun x => x.id == g.profileId) = some row.profile := by
  unfold enrichRow at he
  cases hh : db.hospitals.find? (fun x => x.id == g.hospitalId) with
  | none =>
    rw [hh] at he
    exact Option.noConfusion he
  | some hosp =>
    cases hp : db.profiles.find? (fun x => x.id == g.profileId) with
    | none =>
      rw [hh, hp] at he
      exact Option.noConfusion he
    | some prof =>
      rw [hh, hp] at he
      injection he with he2
      subst he2
      refine ⟨rfl, ?_, rfl, rfl⟩
      have hid := List.find?_some hh
      simpa using hid

/-- Projecting the profiles of the joined rows at one hospital equals
looking the profiles up from the grants at that hospital. -/
theorem rows_filter_profiles (db : DB) (h : String) :
    ∀ l : List UserHospitalProfile,
      (∀ g ∈ l, (enrichRow db g).isSome = true) →
      ((l.filterMap (enrichRow db)).filter
        (fun x => x.hospital.id == h)).map (fun x => x.profile) =
      (l.filter (fun g => g.hospitalId == h)).filterMap
        (fun g => db.profiles.find? (fun x => x.id == g.profileId)) := by
  intro l
  induction l with
  | nil => intro _; rfl
  | cons g t ih =>
    intro hfk
    have hg := hfk g (List.mem_cons_self g t)
    have iht := ih (fun x hx => hfk x (List.mem_cons_of_mem g hx))
    cases he : enrichRow db g with
    | none =>
      rw [he] at hg
      exact Bool.noConfusion hg
    | some row =>
      obtain ⟨hu, hid, hh, hp⟩ := enrich_some he
      rw [List.filterMap_cons, he, List.filter_cons]
      cases hgh : (g.hospitalId == h) with
      | true =>
        have hgh2 : g.hospitalId = h := by simpa using hgh
        have hrow : (row.hospital.id == h) = true := by rw [hid]; exact hgh
        simp [List.filter_cons, hrow, hgh2, List.filterMap_cons, hp, iht]
      | false =>
        have hgh2 : ¬ g.hospitalId = h := by simpa using hgh
        have hrow : (row.hospital.id == h) = false := by rw [hid]; exact hgh
        simp [List.filter_cons, hrow, hgh2, iht]

/-- Every entry of `getUserHospitals` is the grouped form of the first
joined row carrying its hospital id. -/
theorem res_entry_eq (db : DB) (uid : String) (e : HospitalWithProfiles)
    (he : e ∈ getUserHospitals db uid) :
    ∃ r0 : UhpWithJoins,
      (activeRows db uid).find? (fun r => r.hospital.id == e.hospital.id) =
        some r0 ∧
      e = { hospital := r0.hospital, profiles :=
        ((activeRows db uid).filter
          (fun r => r.hospital.id == e.hospital.id)).map (fun r => r.profile) } := by
  obtain ⟨hnd, hchar⟩ := foldl_group (activeRows db uid) [] (by simp)
  have hself : ((activeRows db uid).foldl groupStep []).find?
      (fun x => x.hospital.id == e.hospital.id) = some e :=
    hwp_find_self _ hnd e he
  have hc := hchar e.hospital.id
  simp only [List.find?_nil] at hc
  have heq := hself.symm.trans hc
  cases hfr : (activeRows db uid).find?
      (fun r => r.hospital.id == e.hospital.id) with
  | none =>
    rw [hfr] at heq
    exact Option.noConfusion heq
  | some r0 =>
    rw [hfr] at heq
    injection heq with heq2
    exact ⟨r0, rfl, heq2⟩

/-- C10: `getUserHospitals` groups the user's active grants by tenant: each
tenant with at least one active grant appears exactly once (hospital ids are
duplicate-free, and a tenant appears iff such a grant exists), each entry
carries that tenant's own store row, and each entry's profiles list is
exactly the looked-up roles of the user's active grants at that tenant. -/
theorem getUserHospitals_groups (db : DB) (uid : String)
    (hFK : ∀ g ∈ db.userHospitalProfiles, (enrichRow db g).isSome = true) :
    ((getUserHospitals db uid).map (fun e => e.hospital.id)).Nodup ∧
    (∀ h : String,
      (∃ e ∈ getUserHospitals db uid, e.hospital.id = h) ↔
      (∃ g ∈ db.userHospitalProfiles,
        g.userId = uid ∧ g.isActive = true ∧ g.hospitalId = h)) ∧
    (∀ e ∈ getUserHospitals db uid,
      db.hospitals.find? (fun x => x.id == e.hospital.id) = some e.hospital) ∧
    (∀ e ∈ getUserHospitals db uid,
      e.profiles = (db.userHospitalProfiles.filter
        (fun g => g.userId == uid && g.isActive &&
          g.hospitalId == e.hospital.id)).filterMap
        (fun g => db.profiles.find? (fun x => x.id == g.profileId))) := by
  obtain ⟨hnd, hchar⟩ := foldl_group (activeRows db uid) [] (by simp)
  refine ⟨hnd, ?_, ?_, ?_⟩
  · intro h
    constructor
    · rintro ⟨e, hemem, heid⟩
      obtain ⟨r0, hfr, _⟩ := res_entry_eq db uid e hemem
      rw [heid] at hfr
      have hr0mem : r0 ∈ activeRows db uid := List.mem_of_find?_eq_some hfr
      have hr0id : r0.hospital.id = h := by
        have hp := List.find?_some hfr
        simpa using hp
      simp only [activeRows] at hr0mem
      rcases List.mem_filterMap.mp hr0mem with ⟨g, hgfil, henr⟩
      rcases List.mem_filter.mp hgfil with ⟨hgmem, hgpred⟩
      obtain ⟨h2, h3⟩ := Bool.and_eq_true_iff.mp hgpred
      obtain ⟨_, hid0, _, _⟩ := enrich_some henr
      refine ⟨g, hgmem, by simpa using h2, h3, ?_⟩
      rw [← hid0]
      exact hr0id
    · rintro ⟨g, hgmem, huid2, hact2, hhid2⟩
      have hgfil : g ∈ db.userHospitalProfiles.filter
          (fun x => x.userId == uid && x.isActive) :=
        List.mem_filter.mpr ⟨hgmem, by simp [huid2, hact2]⟩
      rcases Option.isSome_iff_exists.mp (hFK g hgmem) with ⟨row, henr⟩
      have hrowmem : row ∈ activeRows db uid := by
        simp only [activeRows]
        exact List.mem_filterMap.mpr ⟨g, hgfil, henr⟩
      obtain ⟨_, hid0, _, _⟩ := enrich_some henr
      have hrid : row.hospital.id = h := by
        rw [hid0]
        exact hhid2
      have hsome : ((activeRows db uid).find?
          (fun r => r.hospital.id == h)).isSome :=
        List.find?_isSome.mpr ⟨row, hrowmem, by simp [hrid]⟩
      cases hfr : (activeRows db uid).find? (fun r => r.hospital.id == h) with
      | none =>
        rw [hfr] at hsome
        exact Bool.noConfusion hsome
      | some r0 =>
        have hres := hchar h
        simp only [List.find?_nil] at hres
        rw [hfr] at hres
        exact ⟨_, List.mem_of_find?_eq_some hres, hwp_find_pred hres⟩
  · intro e he
    obtain ⟨r0, hfr, heq2⟩ := res_entry_eq db uid e he
    have hr0mem : r0 ∈ activeRows db uid := List.mem_of_find?_eq_some hfr
    simp only [activeRows] at hr0mem
    rcases List.mem_filterMap.mp hr0mem with ⟨g0, hg0fil, henr0⟩
    obtain ⟨_, hid0, hh0, _⟩ := enrich_some henr0
    have hhosp : e.hospital = r0.hospital := by
      rw [heq2]
    rw [hhosp, show r0.hospital.id = g0.hospitalId from hid0]
    exact hh0
  · intro e he
    obtain ⟨r0, hfr, heq2⟩ := res_entry_eq db uid e he
    have hprof : e.profiles = ((activeRows db uid).filter
        (fun r => r.hospital.id == e.hospital.id)).map (fun r => r.profile) := by
      conv_lhs => rw [heq2]
    have hFK1 : ∀ g ∈ db.userHospitalProfiles.filter
        (fun x => x.userId == uid && x.isActive), (enrichRow db g).isSome = true :=
      fun g hg => hFK g (List.mem_of_mem_filter hg)
    have hrows := rows_filter_profiles db e.hospital.id
      (db.userHospitalProfiles.filter (fun x => x.userId == uid && x.isActive))
      hFK1
    have hcomb : ((db.userHospitalProfiles.filter
        (fun x => x.userId == uid && x.isActive)).filter
        (fun x => x.hospitalId == e.hospital.id)) =
        db.userHospitalProfiles.filter
          (fun x => x.userId == uid && x.isActive &&
            x.hospitalId == e.hospital.id) := by
      rw [List.filter_filter]
      refine List.filter_congr ?_
      intro a _
      rw [Bool.and_comm]
    rw [hprof]
    rw [show ((activeRows db uid).filter
        (fun r => r.hospital.id == e.hospital.id)) =
      (((db.userHospitalProfiles.filter
        (fun x => x.userId == uid && x.isActive)).filterMap
        (enrichRow db)).filter (fun r => r.hospital.id == e.hospital.id))
      from rfl]
    rw [hrows, hcomb]

/-- Witness for C10 at the concrete sample store. -/
theorem getUserHospitals_groups_witness :
    ((getUserHospitals dbW "user-1").map (fun e => e.hospital.id)).Nodup ∧
    (∀ h : String,
      (∃ e ∈ getUserHospitals dbW "user-1", e.hospital.id = h) ↔
      (∃ g ∈ dbW.userHospitalProfiles,
        g.userId = "user-1" ∧ g.isActive = true ∧ g.hospitalId = h)) ∧
    (∀ e ∈ getUserHospitals dbW "user-1",
      dbW.hospitals.find? (fun x => x.id == e.hospital.id) = some e.hospital) ∧
    (∀ e ∈ getUserHospitals dbW "user-1",
      e.profiles = (dbW.userHospitalProfiles.filter
        (fun g => g.userId == "user-1" && g.isActive &&
          g.hospitalId == e.hospital.id)).filterMap
        (fun g => dbW.profiles.find? (fun x => x.id == g.profileId))) :=
  getUserHospitals_groups dbW "user-1" (by decide)

end MsUsers
